import Mathlib

/-!
Verification of the vector-racer server core against its specification.

The Go server is shallowly embedded: float64 arithmetic is modelled by exact
rational arithmetic (`ℚ`), Go integer types by `ℕ`/`ℤ` with explicit
`% 2^w` wrapping where the width matters, and the handful of square roots in
the source are handled either by comparing squared distances (equivalent for
nonnegative bounds) or by passing the distance as an explicitly constrained
argument.  Transcendental road-curve evaluation (`math.Sin`) is abstracted as
a function parameter `roadCurve : ℚ → ℚ`; every theorem quantifies over it.
-/

/-- Go's float-to-integer conversion: truncation toward zero. -/
def trunc (q : ℚ) : ℤ := if 0 ≤ q then ⌊q⌋ else ⌈q⌉

theorem trunc_of_nonneg {q : ℚ} (h : 0 ≤ q) : trunc q = ⌊q⌋ := if_pos h

theorem abs_trunc_sub_lt (q : ℚ) : |(trunc q : ℚ) - q| < 1 := by
  unfold trunc
  split
  · rw [abs_sub_lt_iff]
    constructor
    · linarith [Int.floor_le q]
    · linarith [Int.lt_floor_add_one q]
  · rw [abs_sub_lt_iff]
    constructor
    · linarith [Int.ceil_lt_add_one q]
    · linarith [Int.le_ceil q]

theorem abs_trunc_le (q : ℚ) : |(trunc q : ℚ)| ≤ |q| := by
  unfold trunc
  split
  · next h =>
    rw [abs_of_nonneg h, abs_of_nonneg]
    · exact Int.floor_le q
    · exact_mod_cast Int.floor_nonneg.mpr h
  · next h =>
    push_neg at h
    rw [abs_of_neg h, abs_of_nonpos]
    · have := Int.le_ceil q
      linarith
    · have : ⌈q⌉ ≤ (0 : ℤ) := Int.ceil_le.mpr (by exact_mod_cast h.le)
      exact_mod_cast this

/-- Go's `math.Copysign(f, s)`: magnitude of `f` with the sign of `s`
(the sign of a zero `s` is taken as positive, as for float `+0`). -/
def copysign (f s : ℚ) : ℚ := if s < 0 then -|f| else |f|

namespace config

/- Constants from the `config` package (part_000).  Go evaluates constant
expressions exactly over rationals, so these values are exact. -/

def CarWidth : ℚ := 20
def RoadWidth : ℚ := 400
def MaxSpeed : ℚ := 1400
def Acceleration : ℚ := 900
def Braking : ℚ := 2000
def FrictionRoad : ℚ := 250
def FrictionOffroad : ℚ := 5000
def InertiaDampening : ℚ := 3 / 10
def MinTurnAuthority : ℚ := 1 / 2
def ExplosionTolerance : ℚ := 7 / 20
def TurnSpeed : ℚ := 550
def PushForce : ℚ := 2
def SpeedDiffMultiplier : ℚ := 7 / 2
def SpeedDiffThreshold : ℚ := 200
def CollisionRadius : ℚ := CarWidth * (7 / 5)
def MaxPlayersPerRoom : Nat := 100
def MaxRoomsPerServer : Nat := 50
def MaxViolations : ℤ := 5
def SpeedTolerance : ℚ := 11 / 10
def MaxInputsPerTick : ℤ := 3

end config

/-- Latest applied input of one participant (`PlayerInput`, room.go). -/
structure PlayerInput where
  sequence : ℕ
  keys : ℕ
  steering : ℚ
  throttle : ℚ
  flags : ℕ
deriving DecidableEq

/-- Mutable per-player record (`Player`, room.go).  The `time.Time`
timestamp fields of the source (connect/last-input/explosion times) are
outside the claims and are omitted from the embedding. -/
structure Player where
  id : ℕ
  name : String
  color : ℕ
  x : ℚ
  y : ℚ
  speed : ℚ
  angle : ℚ
  rating : ℚ
  exploded : Bool
  lastValidX : ℚ
  lastValidY : ℚ
  violations : ℤ
  inputsThisTick : ℤ
  currentInput : PlayerInput
deriving DecidableEq

/-- Verdicts of the anti-cheat validator (`ValidationResult`, anticheat.go). -/
inductive ValidationResult where
  | valid
  | rubberband
  | explode
  | kick
  | ignoreInput
deriving DecidableEq

/-- The proposition that the Euclidean distance `√(dx²+dy²)` strictly
exceeds `bound`.  The source compares `math.Sqrt(dx*dx+dy*dy) > bound`;
for a nonnegative bound this is equivalent to comparing squares, and a
negative bound is exceeded by every distance. -/
def distanceExceeds (dx dy bound : ℚ) : Prop :=
  bound < 0 ∨ bound * bound < dx * dx + dy * dy

instance (dx dy bound : ℚ) : Decidable (distanceExceeds dx dy bound) := by
  unfold distanceExceeds; infer_instance

/-- Embeds `AntiCheat.ValidatePlayerMovement` (anticheat.go lines 29-74).
Returns the verdict together with the mutated player.  The source snapshots
`speed` and `violations` under a read lock before mutating; the snapshot
values are exactly the entry values here, since the embedding is
sequential. -/
def ValidatePlayerMovement (p : Player) (dt : ℚ) : ValidationResult × Player :=
  let dx := p.x - p.lastValidX
  let dy := p.y - p.lastValidY
  let maxPossibleDistance := config.MaxSpeed * dt * config.SpeedTolerance
  if distanceExceeds dx dy maxPossibleDistance then
    let p1 := { p with violations := p.violations + 1 }
    if config.MaxViolations < p1.violations then (ValidationResult.kick, p1)
    else (ValidationResult.rubberband, p1)
  else
    let p1 :=
      if config.MaxSpeed * config.SpeedTolerance < |p.speed| then
        { p with violations := p.violations + 1,
                 speed := copysign config.MaxSpeed p.speed }
      else p
    let p2 :=
      if 0 < p.violations ∧ ¬ distanceExceeds dx dy maxPossibleDistance then
        { p1 with violations := 0 }
      else p1
    (ValidationResult.valid, p2)

/-- Embeds `Player.RubberbandToValid` (room.go lines 606-613). -/
def RubberbandToValid (p : Player) : Player :=
  { p with x := p.lastValidX, y := p.lastValidY, violations := p.violations + 1 }

/-- Embeds `Player.SaveValidPosition` (room.go lines 596-603). -/
def SaveValidPosition (p : Player) : Player :=
  { p with lastValidX := p.x, lastValidY := p.y, violations := 0 }

/-- Embeds `Player.Explode` (room.go lines 571-582); the `ExplodedAt`
timestamp is omitted with the other time fields. -/
def Explode (p : Player) : Player :=
  if p.exploded then p else { p with exploded := true, rating := 0 }

/-- Embeds `AntiCheat.ApplyValidationResult` (anticheat.go lines 125-144). -/
def ApplyValidationResult (p : Player) (result : ValidationResult) : Player :=
  match result with
  | ValidationResult.rubberband => RubberbandToValid p
  | ValidationResult.explode => Explode p
  | ValidationResult.kick => p
  | ValidationResult.ignoreInput => p
  | ValidationResult.valid => SaveValidPosition p

/-- Embeds `AntiCheat.ValidatePosition` (anticheat.go lines 77-94),
parametrized by the road curve (`config.GetRoadCurve` uses `math.Sin`). -/
def ValidatePosition (roadCurve : ℚ → ℚ) (p : Player) : ValidationResult :=
  let roadCenter := roadCurve p.y
  let distFromRoad := |p.x - roadCenter|
  let maxAllowedDist :=
    config.RoadWidth * (1 / 2) + config.RoadWidth * config.ExplosionTolerance * (3 / 2)
  if maxAllowedDist < distFromRoad then ValidationResult.explode
  else ValidationResult.valid

/-- Embeds `Physics.UpdatePlayer` (physics.go lines 20-129), parametrized by
the road curve.  The sequence of `let` rebindings mirrors the source's
in-place mutations in order.  Inside the explosion branch the source guards
on `!p.Exploded`; that guard is always true there because of the early
return at the top, so the branch is embedded directly. -/
def UpdatePlayer (roadCurve : ℚ → ℚ) (p : Player) (dt : ℚ) : Player :=
  if p.exploded then p
  else
    let input := p.currentInput
    let accForce : ℚ := if input.keys &&& 1 ≠ 0 then config.Acceleration else 0
    let accForce := if input.keys &&& 2 ≠ 0 then -config.Braking else accForce
    let turnDir : ℚ := if input.keys &&& 4 ≠ 0 then -1 else 0
    let turnDir := if input.keys &&& 8 ≠ 0 then 1 else turnDir
    let accForce :=
      if 1 / 10 < |input.throttle| then
        if 0 < input.throttle then config.Acceleration * input.throttle
        else config.Braking * input.throttle
      else accForce
    let turnDir := if 1 / 10 < |input.steering| then input.steering else turnDir
    let roadCenter := roadCurve p.y
    let distFromCenter := |p.x - roadCenter|
    let roadHalfWidth := config.RoadWidth / 2
    let carHalfWidth := config.CarWidth / 2
    let edgeDist := distFromCenter - roadHalfWidth
    let isOffRoad := decide (-carHalfWidth < edgeDist)
    if config.RoadWidth * config.ExplosionTolerance < edgeDist then
      { p with exploded := true, rating := 0 }
    else
      let activeFriction := if isOffRoad then config.FrictionOffroad else config.FrictionRoad
      let speed := p.speed
      let speed :=
        if accForce = 0 then
          if 0 < speed then max 0 (speed - activeFriction * dt)
          else if speed < 0 then min 0 (speed + activeFriction * dt)
          else speed
        else speed
      let speed := if isOffRoad ∧ accForce ≠ 0 then speed - speed * 2 * dt else speed
      let speed := speed + accForce * dt
      let speed := max (-config.MaxSpeed * (2 / 10)) (min speed config.MaxSpeed)
      let speedRatio := |speed| / config.MaxSpeed
      let understeerFactor := max config.MinTurnAuthority (1 - speedRatio * config.InertiaDampening)
      let next :=
        if 1 / 100 < |turnDir| ∧ 20 < |speed| then
          { p with
              x := p.x + turnDir * config.TurnSpeed * understeerFactor * dt,
              angle := turnDir * 25 * understeerFactor,
              speed := speed * (1 - 3 / 10 * |turnDir| * dt) }
        else { p with speed := speed, angle := p.angle * (9 / 10) }
      let next := { next with y := next.y + next.speed * dt }
      if 0 < next.speed then
        { next with rating := next.rating + (next.speed / 100) * (next.speed / 100) * dt * (1 / 2) }
      else next

/-- Embeds `Physics.CheckCollision` (physics.go lines 132-168).  The source
computes `dist := math.Sqrt(dx*dx+dy*dy)`, irrational in general, so `dist`
is taken as an explicit argument; the theorems constrain it by
`0 ≤ dist ∧ dist * dist = dx² + dy²`, which pins it to the Euclidean
distance.  The source only ever writes fields of `p1` (`p2` is held under a
read lock); the embedding returns the written-back pair to make that
explicit. -/
def CheckCollision (p1 p2 : Player) (dt dist : ℚ) : Player × Player × Bool :=
  let dx := p1.x - p2.x
  let dy := p1.y - p2.y
  let minDist := config.CollisionRadius
  if minDist ≤ dist ∨ dist = 0 then (p1, p2, false)
  else
    let nx := dx / dist
    let ny := dy / dist
    let otherSpeed := p2.speed
    let speedDiff := p1.speed - otherSpeed
    let pushPower := config.PushForce * (|p1.speed| + 100) * dt
    let pushPower :=
      if config.SpeedDiffThreshold < speedDiff then pushPower * config.SpeedDiffMultiplier
      else pushPower
    ({ p1 with
        x := p1.x + nx * pushPower,
        y := p1.y + ny * pushPower,
        speed := p1.speed * (9 / 10) }, p2, true)

/-- Cell key of the spatial grid (`CellKey`, collision.go). -/
structure CellKey where
  x : ℤ
  y : ℤ
deriving DecidableEq

/-- Embeds `SpatialGrid.getCellKey` (collision.go lines 28-33).  Go's
`int64(v)` conversion of a float truncates toward zero. -/
def getCellKey (cellSize : ℚ) (x y : ℚ) : CellKey :=
  { x := trunc (x / cellSize), y := trunc (y / cellSize) }

/-- Embeds `SpatialGrid.Update` (collision.go lines 56-71): the grid is
rebuilt from scratch; the resulting cell contents are modelled as the list
of (cell key, player) assignments made by the insertion loop. -/
def SpatialGridUpdate (cellSize : ℚ) (players : List Player) : List (CellKey × Player) :=
  players.map (fun p => (getCellKey cellSize p.x p.y, p))

/- Wire codec (network package, part_001/part_002).  Messages are byte
lists; a byte is a natural number below 256. -/

def MsgTypeStateUpdate : ℕ := 0x10
def MsgTypeError : ℕ := 0xFF
def ErrorCodeKicked : ℕ := 3

/-- Two's-complement representation of an `int16` value as a `uint16`. -/
def toUInt16 (z : ℤ) : ℕ := (z % 65536).toNat

/-- Two's-complement representation of an `int32` value as a `uint32`. -/
def toUInt32 (z : ℤ) : ℕ := (z % 4294967296).toNat

/-- Two's-complement representation of an `int8` value as a `uint8`. -/
def toUInt8 (z : ℤ) : ℕ := (z % 256).toNat

/-- Signed reading of a `uint16`, as `DataView.getInt16`. -/
def asInt16 (u : ℕ) : ℤ := if u < 32768 then (u : ℤ) else (u : ℤ) - 65536

/-- Signed reading of a `uint32`, as `DataView.getInt32`. -/
def asInt32 (u : ℕ) : ℤ := if u < 2147483648 then (u : ℤ) else (u : ℤ) - 4294967296

/-- Signed reading of a `uint8`, as `DataView.getInt8`. -/
def asInt8 (u : ℕ) : ℤ := if u < 128 then (u : ℤ) else (u : ℤ) - 256

/-- Serialized per-player record (`PlayerStateData`, network package):
`x`, `speed`, `angle` already converted to their signed integer wire types
and `rating` to `uint32`. -/
structure PlayerStateData where
  id : ℕ
  x : ℤ
  y : ℤ
  speed : ℤ
  angle : ℤ
  rating : ℕ
  flags : ℕ
  color : ℕ
deriving DecidableEq, Inhabited

/-- Embeds `ConvertToPlayerStateData` (part_001 lines 198-217).  Go's
float-to-integer conversions truncate toward zero; `uint32(rating)` is
modelled with a `% 2^32` wrap (the source's behavior outside `[0, 2^32)` is
implementation-defined and not relied on by any claim). -/
def ConvertToPlayerStateData (id : ℕ) (x y speed angle rating : ℚ)
    (exploded : Bool) (color : ℕ) : PlayerStateData :=
  { id := id
    x := trunc (x * 10)
    y := trunc y
    speed := trunc (speed * 10)
    angle := trunc (max (-127) (min 127 (angle * 127 / 25)))
    rating := (trunc rating % 4294967296).toNat
    flags := if exploded then 1 else 0
    color := color }

/-- Embeds `Protocol.encodePlayerState` (part_001 lines 89-119): one
16-byte little-endian record. -/
def encodePlayerState (d : PlayerStateData) : List ℕ :=
  let idu := d.id % 65536
  let xu := toUInt16 d.x
  let yu := toUInt32 d.y
  let su := toUInt16 d.speed
  let au := toUInt8 d.angle
  let rating := min d.rating 16777215
  [idu % 256, idu / 256,
   xu % 256, xu / 256,
   yu % 256, yu / 256 % 256, yu / 65536 % 256, yu / 16777216,
   su % 256, su / 256,
   au,
   rating % 256, rating / 256 % 256, rating / 65536,
   d.flags,
   d.color]

/-- Embeds `Protocol.EncodeStateUpdate` (part_001 lines 65-86): header
`[type, tick lo, tick hi, count]` followed by `count` 16-byte records; the
serialized count saturates at 255. -/
def EncodeStateUpdate (tick : ℕ) (players : List PlayerStateData) : List ℕ :=
  let playerCount := min players.length 255
  let tu := tick % 65536
  [MsgTypeStateUpdate, tu % 256, tu / 256, playerCount] ++
    ((players.take playerCount).map encodePlayerState).flatten

/-- Embeds `Protocol.EncodeError` (part_001 lines 182-195).  The message
string is taken as its code points; all reasons used by the server are
ASCII, where code points and UTF-8 bytes coincide. -/
def EncodeError (code : ℕ) (message : String) : List ℕ :=
  let msgBytes := (message.data.map Char.toNat).take 255
  [MsgTypeError, code, msgBytes.length] ++ msgBytes

/-- Client-side decoded per-player record (`NetworkPlayerData`,
client.ts). -/
structure NetworkPlayerData where
  id : ℕ
  x : ℚ
  y : ℚ
  speed : ℚ
  angle : ℚ
  rating : ℕ
  flags : ℕ
  color : ℕ
deriving DecidableEq, Inhabited

/-- Byte read at an offset; the client's `DataView` reads are always in
range on well-formed frames, so the out-of-range default is never
exercised by the theorems. -/
def byteAt (data : List ℕ) (i : ℕ) : ℕ := data.getD i 0

/-- One 16-byte record of `decodeStateUpdate` (client.ts lines 290-304). -/
def decodeRecord (data : List ℕ) (off : ℕ) : NetworkPlayerData :=
  { id := byteAt data off + 256 * byteAt data (off + 1)
    x := (asInt16 (byteAt data (off + 2) + 256 * byteAt data (off + 3)) : ℚ) / 10
    y := (asInt32 (byteAt data (off + 4) + 256 * byteAt data (off + 5) +
          65536 * byteAt data (off + 6) + 16777216 * byteAt data (off + 7)) : ℚ)
    speed := (asInt16 (byteAt data (off + 8) + 256 * byteAt data (off + 9)) : ℚ) / 10
    angle := (asInt8 (byteAt data (off + 10)) : ℚ) * 25 / 127
    rating := byteAt data (off + 11) + 256 * byteAt data (off + 12) +
              65536 * byteAt data (off + 13)
    flags := byteAt data (off + 14)
    color := byteAt data (off + 15) }

/-- Embeds `decodeStateUpdate` (client.ts lines 281-307): tick plus the
`count` records parsed at offsets `4 + 16*i`. -/
def decodeStateUpdate (data : List ℕ) : ℕ × List NetworkPlayerData :=
  (byteAt data 1 + 256 * byteAt data 2,
   (List.range (byteAt data 3)).map (fun i => decodeRecord data (4 + 16 * i)))

/- Room and matchmaker (room.go, matchmaker.go).  The participant map is
modelled as an association list; connection and broadcast side effects are
modelled only where a claim is about them (the kick path's error frame). -/

/-- Error value of `AddPlayer` when at capacity (`ErrRoomFull`, room.go). -/
def ErrRoomFull : String := "room is full"

/-- Game room state (`Room`, room.go): participant map and the `uint16`
id counter.  The scheduler, protocol and callback fields carry no state
relevant to the claims. -/
structure Room where
  id : String
  players : List (ℕ × Player)
  nextPlayerID : ℕ
deriving DecidableEq

/-- Embeds `NewRoom` (room.go lines 52-63): empty map, counter at 1. -/
def NewRoom (id : String) : Room :=
  { id := id, players := [], nextPlayerID := 1 }

/-- Embeds `NewPlayer` (room.go lines 474-492). -/
def NewPlayer (id : ℕ) (name : String) (color : ℕ) : Player :=
  { id := id, name := name, color := color
    x := 0, y := 0, speed := 0, angle := 0, rating := 0
    exploded := false
    lastValidX := 0, lastValidY := 0
    violations := 0, inputsThisTick := 0
    currentInput := { sequence := 0, keys := 0, steering := 0, throttle := 0, flags := 0 } }

/-- Embeds `Room.AddPlayer` (room.go lines 97-132), returning the possibly
updated room together with the assigned id or the room-full error.  The id
counter is a Go `uint16`, so its increment wraps modulo 2^16.  The spawn
position is the road centerline at the origin: `GetRoadCurve 0 =
sin 0 * 600 + (sin 0)^3 * 300 = 0` exactly.  The join/room-info frames are
transport effects outside the claims. -/
def AddPlayer (r : Room) (name : String) (color : ℕ) : Room × Except String ℕ :=
  if config.MaxPlayersPerRoom ≤ r.players.length then (r, Except.error ErrRoomFull)
  else
    let id := r.nextPlayerID
    let player := SaveValidPosition { NewPlayer id name color with x := 0, y := 0 }
    ({ r with nextPlayerID := (r.nextPlayerID + 1) % 65536,
              players := r.players ++ [(id, player)] },
     Except.ok id)

/-- Embeds `Room.RemovePlayer` (room.go lines 136-155): map deletion; the
connection close and leave notice are transport effects. -/
def RemovePlayer (r : Room) (playerID : ℕ) : Room :=
  { r with players := r.players.filter (fun pr => pr.1 ≠ playerID) }

/-- Writes an updated player record back into the room map, standing for
the source's in-place mutation through the shared pointer. -/
def setPlayer (r : Room) (pid : ℕ) (p : Player) : Room :=
  { r with players := r.players.map (fun pr => if pr.1 = pid then (pid, p) else pr) }

/-- Movement-validation step of `Room.updatePhysics` for one player
(room.go lines 271-283) together with the kick path `Room.kickPlayer`
(room.go lines 365-379).  Returns the updated room, the frames sent to this
participant during the step, and the movement verdict.  On a kick verdict
the room sends exactly the error frame `EncodeError 3 reason` to the player
and removes it (the leave notice broadcast by `RemovePlayer` goes to the
remaining players only); otherwise the verdict is applied, followed by the
position check and its application. -/
def roomValidateMovement (roadCurve : ℚ → ℚ) (r : Room) (pid : ℕ) (dt : ℚ) :
    Room × List (List ℕ) × Option ValidationResult :=
  match r.players.find? (fun pr => pr.1 = pid) with
  | none => (r, [], none)
  | some pr =>
    let step := ValidatePlayerMovement pr.2 dt
    if step.1 = ValidationResult.kick then
      (RemovePlayer r pid, [EncodeError ErrorCodeKicked "Speed hack detected"], some step.1)
    else
      let p2 := ApplyValidationResult step.2 step.1
      let p3 := ApplyValidationResult p2 (ValidatePosition roadCurve p2)
      (setPlayer r pid p3, [], some step.1)

/-- Places a participant at an adversarially chosen position, standing for
the true displacement accumulated by the time the validation pass reads the
position. -/
def setPlayerPos (r : Room) (pid : ℕ) (pos : ℚ × ℚ) : Room :=
  { r with players := r.players.map (fun pr =>
      if pr.1 = pid then (pr.1, { pr.2 with x := pos.1, y := pos.2 }) else pr) }

/-- One offending tick seen by the anti-cheat: the participant has moved to
`pos`, then the movement-validation step of the tick runs. -/
def cheatTick (roadCurve : ℚ → ℚ) (r : Room) (pid : ℕ) (pos : ℚ × ℚ) (dt : ℚ) :
    Room × List (List ℕ) × Option ValidationResult :=
  roomValidateMovement roadCurve (setPlayerPos r pid pos) pid dt

/-- Allocator registry (`Matchmaker`, matchmaker.go). -/
structure Matchmaker where
  rooms : List (String × Room)
deriving DecidableEq

/-- Embeds `Room.GetPlayerCount` (room.go lines 191-195). -/
def GetPlayerCount (r : Room) : ℕ := r.players.length

/-- Embeds `Matchmaker.FindRoom` (matchmaker.go lines 26-48).  The room id
produced by `generateRoomID` (crypto/rand) is taken as the argument
`newRoomID`.  Go map iteration order is unspecified; the registry is a
list and the scan returns the first room with space in list order. -/
def FindRoom (m : Matchmaker) (newRoomID : String) : Matchmaker × Option Room :=
  match m.rooms.find? (fun pr => GetPlayerCount pr.2 < config.MaxPlayersPerRoom) with
  | some pr => (m, some pr.2)
  | none =>
    if config.MaxRoomsPerServer ≤ m.rooms.length then (m, none)
    else
      let room := NewRoom newRoomID
      ({ rooms := m.rooms ++ [(newRoomID, room)] }, some room)

/-- Player-level view of one offending tick: the participant has moved to
`pos`; then the movement check runs, its verdict is applied (unless it is a
kick, which the room resolves), and the position check runs and is applied,
exactly as in the per-player loop body of `Room.updatePhysics`. -/
def playerCheatTick (roadCurve : ℚ → ℚ) (p : Player) (pos : ℚ × ℚ) (dt : ℚ) :
    ValidationResult × Player :=
  let moved := { p with x := pos.1, y := pos.2 }
  let step := ValidatePlayerMovement moved dt
  if step.1 = ValidationResult.kick then (step.1, step.2)
  else
    let p2 := ApplyValidationResult step.2 step.1
    (step.1, ApplyValidationResult p2 (ValidatePosition roadCurve p2))

/-- Iterates `playerCheatTick` over a list of per-tick positions, collecting
the movement verdicts. -/
def playerCheatRun (roadCurve : ℚ → ℚ) (p : Player) (moves : List (ℚ × ℚ)) (dt : ℚ) :
    List ValidationResult × Player :=
  match moves with
  | [] => ([], p)
  | m :: ms =>
    let step := playerCheatTick roadCurve p m dt
    let rest := playerCheatRun roadCurve step.2 ms dt
    (step.1 :: rest.1, rest.2)

/-- Iterates `cheatTick` at room level, collecting the frames sent to the
participant and the per-tick movement verdicts. -/
def cheatRun (roadCurve : ℚ → ℚ) (r : Room) (pid : ℕ) (moves : List (ℚ × ℚ)) (dt : ℚ) :
    Room × List (List ℕ) × List (Option ValidationResult) :=
  match moves with
  | [] => (r, [], [])
  | m :: ms =>
    let step := cheatTick roadCurve r pid m dt
    let rest := cheatRun roadCurve step.1 pid ms dt
    (rest.1, step.2.1 ++ rest.2.1, step.2.2 :: rest.2.2)

/-- Membership operation on a room, for id-assignment traces. -/
inductive RoomOp where
  | add (name : String) (color : ℕ)
  | remove (pid : ℕ)
deriving DecidableEq

/-- Runs one membership operation, returning the assigned id when the
operation was a successful join. -/
def runOp (r : Room) (op : RoomOp) : Room × Option ℕ :=
  match op with
  | RoomOp.add name color =>
    match AddPlayer r name color with
    | (r1, Except.ok id) => (r1, some id)
    | (r1, Except.error _) => (r1, none)
  | RoomOp.remove pid => (RemovePlayer r pid, none)

/-- Runs a sequence of membership operations, collecting every assigned id
in order. -/
def runTrace (r : Room) (ops : List RoomOp) : Room × List ℕ :=
  match ops with
  | [] => (r, [])
  | op :: rest =>
    let step := runOp r op
    let next := runTrace step.1 rest
    (next.1, step.2.toList ++ next.2)

/-- `n` join/leave cycles: each join is immediately undone by removing the
id it was assigned, so the room never fills while the id counter keeps
advancing. -/
def wrapTrace (n : ℕ) : List RoomOp :=
  (List.range n).flatMap (fun i => [RoomOp.add "w" 0, RoomOp.remove ((1 + i) % 65536)])

/-- Participant snapshot used by the broadcast path (`PlayerState`,
room.go). -/
structure PlayerState where
  id : ℕ
  name : String
  color : ℕ
  x : ℚ
  y : ℚ
  speed : ℚ
  angle : ℚ
  rating : ℚ
  exploded : Bool
deriving DecidableEq, Inhabited

/-- The conversion applied to each snapshot by `Room.broadcastState`
(room.go lines 302-315). -/
def convertState (s : PlayerState) : PlayerStateData :=
  ConvertToPlayerStateData s.id s.x s.y s.speed s.angle s.rating s.exploded s.color

/- Concrete sample data for the closed witness and counterexample
theorems. -/

/-- An already exploded participant with leftover motion state. -/
def explodedSample : Player :=
  { NewPlayer 1 "a" 0 with exploded := true, speed := 500, x := 30, y := 700, rating := 9 }

/-- A participant whose reported speed vastly exceeds the allowed bound and
whose position is far from its last validated position. -/
def speedyPlayer : Player :=
  { NewPlayer 2 "s" 0 with x := 1000000, speed := 1000000 }

/-- A participant whose displacement is within bound but whose speed
exceeds the tolerated maximum. -/
def clampPlayer : Player :=
  { NewPlayer 3 "c" 0 with speed := 2000 }

/-- A participant on the negative side of the origin cell. -/
def negPlayer : Player :=
  { NewPlayer 7 "n" 0 with x := -50, y := 0 }

/-- A participant comfortably inside a positive cell. -/
def posPlayer : Player :=
  { NewPlayer 8 "q" 0 with x := 250, y := 30 }

/-- A room holding exactly the configured cap of participants. -/
def fullRoom : Room :=
  { id := "full"
    players := (List.range 100).map (fun i => (i + 1, NewPlayer (i + 1) "p" 0))
    nextPlayerID := 101 }

/-- A registry holding the configured cap of rooms, all of them full. -/
def fullRegistry : Matchmaker :=
  { rooms := (List.range 50).map (fun i => (toString i, fullRoom)) }

/-- A single-participant room whose participant sits at the origin with a
fresh anti-cheat baseline. -/
def cheaterRoom : Room :=
  { id := "r", players := [(1, NewPlayer 1 "c" 0)], nextPlayerID := 2 }

/-- A participant already at six violations with its baseline at the
origin. -/
def kickReadyPlayer : Player :=
  { NewPlayer 9 "k" 0 with violations := 6 }

/-- A snapshot whose x coordinate falls in the middle of a ×10 quantization
step. -/
def tinyState : PlayerState :=
  { id := 1, name := "t", color := 0, x := 9 / 100, y := 0, speed := 0, angle := 0,
    rating := 0, exploded := false }

/-- A snapshot with representative values inside every wire range. -/
def sampleState : PlayerState :=
  { id := 513, name := "u", color := 4, x := 3 / 2, y := 7, speed := 100, angle := 10,
    rating := 5, exploded := false }

/-- A short join/leave trace: three successful joins with one leave in
between. -/
def shortTrace : List RoomOp :=
  [RoomOp.add "a" 0, RoomOp.add "b" 1, RoomOp.remove 1, RoomOp.add "c" 2]

/-!
Theorems.  Each claim of the specification gets exactly one main theorem,
preceded by helper lemmas where needed.
-/

/-- C10: a participant whose exploded flag is already set at the start of a
physics integration step is left completely unchanged by `UpdatePlayer` —
no friction, acceleration, position advance, or rating accrual — for any
road curve, any input and any `dt`. -/
theorem updatePlayer_exploded_frozen (roadCurve : ℚ → ℚ) (p : Player) (dt : ℚ)
    (h : p.exploded = true) : UpdatePlayer roadCurve p dt = p := by
  unfold UpdatePlayer
  rw [h]
  simp

/-- Witness for C10 at a concrete exploded participant. -/
theorem updatePlayer_exploded_frozen_witness :
    UpdatePlayer (fun _ => 0) explodedSample (1 / 60) = explodedSample :=
  updatePlayer_exploded_frozen (fun _ => 0) explodedSample (1 / 60) rfl

/-- C7: joining a room whose participant map already holds the configured
cap returns the room-full error and leaves the room — participant map and
id counter — unchanged. -/
theorem addPlayer_full_rejects (r : Room) (name : String) (color : ℕ)
    (h : config.MaxPlayersPerRoom ≤ r.players.length) :
    AddPlayer r name color = (r, Except.error ErrRoomFull) := by
  unfold AddPlayer
  rw [if_pos h]

/-- Witness for C7: a room at the cap of 100 participants rejects a join
and is unchanged. -/
theorem addPlayer_full_rejects_witness :
    AddPlayer fullRoom "new" 3 = (fullRoom, Except.error ErrRoomFull) :=
  addPlayer_full_rejects fullRoom "new" 3
    (by simp [fullRoom, config.MaxPlayersPerRoom])

/-- C6 counterexample: the spatial index does not use `floor(x/100)`.  Go's
`int64` conversion truncates toward zero, so the participant at
`x = -50` is assigned to cell `(0, 0)`, while `floor(-50/100) = -1`. -/
theorem spatialGrid_floor_counterexample :
    SpatialGridUpdate 100 [negPlayer] = [({ x := 0, y := 0 }, negPlayer)] ∧
    (⌊negPlayer.x / 100⌋, ⌊negPlayer.y / 100⌋) ≠ ((0 : ℤ), (0 : ℤ)) := by
  constructor
  · simp only [SpatialGridUpdate, getCellKey, List.map]
    norm_num [negPlayer, NewPlayer, trunc]
  · norm_num [negPlayer, NewPlayer]

/-- C6 (amended): the rebuilt spatial index assigns every participant to
the cell keyed by the toward-zero truncation of `(x/100, y/100)`; this
coincides with `(floor(x/100), floor(y/100))` whenever both coordinates are
nonnegative. -/
theorem spatialGrid_cell_assignment (players : List Player) (p : Player)
    (hp : p ∈ players) :
    (getCellKey 100 p.x p.y, p) ∈ SpatialGridUpdate 100 players ∧
    getCellKey 100 p.x p.y = { x := trunc (p.x / 100), y := trunc (p.y / 100) } ∧
    (0 ≤ p.x → 0 ≤ p.y →
      getCellKey 100 p.x p.y = { x := ⌊p.x / 100⌋, y := ⌊p.y / 100⌋ }) := by
  refine ⟨List.mem_map_of_mem _ hp, rfl, fun hx hy => ?_⟩
  unfold getCellKey
  rw [trunc_of_nonneg (div_nonneg hx (by norm_num)),
    trunc_of_nonneg (div_nonneg hy (by norm_num))]

/-- Witness for C6 (amended) at a participant with positive coordinates. -/
theorem spatialGrid_cell_assignment_witness :
    (getCellKey 100 posPlayer.x posPlayer.y, posPlayer) ∈ SpatialGridUpdate 100 [posPlayer] ∧
    getCellKey 100 posPlayer.x posPlayer.y = { x := 2, y := 0 } := by
  have h := spatialGrid_cell_assignment [posPlayer] posPlayer (by decide)
  refine ⟨h.1, ?_⟩
  rw [h.2.2 (by decide) (by decide)]
  norm_num [posPlayer, NewPlayer]

/-- C9: when the registry already holds the room-count cap and every
registered room is at its player cap, `FindRoom` reports no capacity and
leaves the registry unchanged — no room is created, registered, or
started. -/
theorem findRoom_no_capacity (m : Matchmaker) (newRoomID : String)
    (hfull : ∀ pr ∈ m.rooms, config.MaxPlayersPerRoom ≤ GetPlayerCount pr.2)
    (hcap : config.MaxRoomsPerServer ≤ m.rooms.length) :
    FindRoom m newRoomID = (m, none) := by
  unfold FindRoom
  have hnone : m.rooms.find?
      (fun pr => GetPlayerCount pr.2 < config.MaxPlayersPerRoom) = none := by
    rw [List.find?_eq_none]
    intro pr hpr
    simp only [decide_eq_true_eq, not_lt]
    exact hfull pr hpr
  rw [hnone]
  simp [hcap]

/-- Witness for C9: fifty full rooms, one more request, nothing changes. -/
theorem findRoom_no_capacity_witness :
    FindRoom fullRegistry "fresh" = (fullRegistry, none) := by
  refine findRoom_no_capacity fullRegistry "fresh" ?_ ?_
  · intro pr hpr
    simp only [fullRegistry, List.mem_map, List.mem_range] at hpr
    obtain ⟨i, _, rfl⟩ := hpr
    simp [GetPlayerCount, fullRoom, config.MaxPlayersPerRoom]
  · simp [fullRegistry, config.MaxRoomsPerServer]

/-- C5: with track width 400 and tolerance 0.35, one physics integration
step detonates a live participant — sets `exploded`, zeroes the rating, and
performs no further integration that tick — exactly when the lateral excess
beyond the road half-width exceeds 140. -/
theorem updatePlayer_explosion_boundary (roadCurve : ℚ → ℚ) (p : Player) (dt : ℚ)
    (h : p.exploded = false) :
    ((UpdatePlayer roadCurve p dt).exploded = true ↔
      140 < |p.x - roadCurve p.y| - config.RoadWidth / 2) ∧
    (140 < |p.x - roadCurve p.y| - config.RoadWidth / 2 →
      UpdatePlayer roadCurve p dt = { p with exploded := true, rating := 0 }) := by
  have hthr : config.RoadWidth * config.ExplosionTolerance = 140 := by
    norm_num [config.RoadWidth, config.ExplosionTolerance]
  by_cases hc : 140 < |p.x - roadCurve p.y| - config.RoadWidth / 2
  · constructor
    · unfold UpdatePlayer
      rw [h]
      simp [hthr, hc]
    · intro _
      unfold UpdatePlayer
      rw [h]
      simp [hthr, hc]
  · refine ⟨?_, fun hcc => absurd hcc hc⟩
    unfold UpdatePlayer
    rw [h]
    simp only [Bool.false_eq_true, if_false, hthr, hc, apply_ite Player.exploded]
    simp [hc, apply_ite Player.exploded]

/-- Witness for C5 at the boundary: lateral excess 141 detonates, lateral
excess exactly 140 does not. -/
theorem updatePlayer_explosion_boundary_witness :
    (UpdatePlayer (fun _ => 0) { NewPlayer 1 "p" 0 with x := 341 } (1 / 60)).exploded = true ∧
    (UpdatePlayer (fun _ => 0) { NewPlayer 1 "p" 0 with x := 340 } (1 / 60)).exploded = false := by
  constructor
  · exact (updatePlayer_explosion_boundary (fun _ => 0)
      { NewPlayer 1 "p" 0 with x := 341 } (1 / 60) rfl).1.mpr
      (by norm_num [NewPlayer, config.RoadWidth])
  · have h := (updatePlayer_explosion_boundary (fun _ => 0)
      { NewPlayer 1 "p" 0 with x := 340 } (1 / 60) rfl).1
    have : ¬ (140 : ℚ) <
        |({ NewPlayer 1 "p" 0 with x := 340 } : Player).x - (fun (_ : ℚ) => (0 : ℚ))
          (({ NewPlayer 1 "p" 0 with x := 340 } : Player).y)| - config.RoadWidth / 2 := by
      norm_num [NewPlayer, config.RoadWidth]
    rcases Bool.eq_false_or_eq_true
      (UpdatePlayer (fun _ => 0) { NewPlayer 1 "p" 0 with x := 340 } (1 / 60)).exploded with
      hb | hb
    · exact absurd (h.mp hb) this
    · exact hb

/-- C4: for a candidate pair at Euclidean distance `dist` (pinned by
`0 ≤ dist` and `dist² = dx² + dy²`): when the distance is zero or at least
the collision radius of 28, neither participant changes; otherwise only the
first participant is displaced along the normalized separation vector by
`pushForce·(|speed_a|+100)·dt`, multiplied by 3.5 when
`speed_a − speed_b` exceeds 200, its speed is damped ×0.9, and the second
participant is returned unchanged. -/
theorem checkCollision_pair_effect (p1 p2 : Player) (dt dist : ℚ)
    (_hnn : 0 ≤ dist)
    (_hd : dist * dist =
      (p1.x - p2.x) * (p1.x - p2.x) + (p1.y - p2.y) * (p1.y - p2.y)) :
    ((dist = 0 ∨ config.CollisionRadius ≤ dist) →
      CheckCollision p1 p2 dt dist = (p1, p2, false)) ∧
    (dist ≠ 0 → dist < config.CollisionRadius →
      CheckCollision p1 p2 dt dist =
        ({ p1 with
            x := p1.x + ((p1.x - p2.x) / dist) *
              (config.PushForce * (|p1.speed| + 100) * dt *
                (if config.SpeedDiffThreshold < p1.speed - p2.speed
                 then config.SpeedDiffMultiplier else 1)),
            y := p1.y + ((p1.y - p2.y) / dist) *
              (config.PushForce * (|p1.speed| + 100) * dt *
                (if config.SpeedDiffThreshold < p1.speed - p2.speed
                 then config.SpeedDiffMultiplier else 1)),
            speed := p1.speed * (9 / 10) }, p2, true)) := by
  constructor
  · intro h
    unfold CheckCollision
    rw [if_pos (Or.symm h)]
  · intro hne hlt
    unfold CheckCollision
    rw [if_neg (by push_neg; exact ⟨hlt, hne⟩)]
    by_cases hdiff : config.SpeedDiffThreshold < p1.speed - p2.speed
    · simp [if_pos hdiff]
    · simp [if_neg hdiff]

/-- Witness for C4, the specification's scenario: distance 20 < 28, speeds
300 and 50 (difference 250 > 200), so the push on the first participant is
amplified and the second participant is untouched. -/
theorem checkCollision_pair_effect_witness :
    CheckCollision { NewPlayer 1 "a" 0 with speed := 300 }
        { NewPlayer 2 "b" 0 with x := 20, speed := 50 } (1 / 60) 20 =
      ({ NewPlayer 1 "a" 0 with speed := 270, x := -140 / 3, y := 0 },
       { NewPlayer 2 "b" 0 with x := 20, speed := 50 }, true) := by
  have h := (checkCollision_pair_effect
    { NewPlayer 1 "a" 0 with speed := 300 }
    { NewPlayer 2 "b" 0 with x := 20, speed := 50 } (1 / 60) 20
    (by norm_num)
    (by norm_num [NewPlayer])).2
    (by norm_num)
    (by norm_num [config.CollisionRadius, config.CarWidth])
  rw [h]
  norm_num [NewPlayer, config.PushForce, config.SpeedDiffThreshold,
    config.SpeedDiffMultiplier]

/-- Magnitude of `copysign` is the magnitude of its first argument. -/
theorem abs_copysign (f s : ℚ) : |copysign f s| = |f| := by
  unfold copysign
  split
  · rw [abs_neg, abs_abs]
  · rw [abs_abs]

/-- C2 counterexample: when the displacement check fires, the function
returns before ever reaching the speed-magnitude check, and the rubberband
verdict restores only the position — the speed survives far beyond
`maxSpeed·1.1` after the pass. -/
theorem validation_speed_bound_counterexample :
    ¬ |(ApplyValidationResult (ValidatePlayerMovement speedyPlayer (1 / 60)).2
        (ValidatePlayerMovement speedyPlayer (1 / 60)).1).speed| ≤
      config.MaxSpeed * config.SpeedTolerance := by
  norm_num [speedyPlayer, NewPlayer, ValidatePlayerMovement, ApplyValidationResult,
    RubberbandToValid, distanceExceeds, config.MaxSpeed, config.SpeedTolerance,
    config.MaxViolations]

/-- C2 (amended): the post-pass speed bound `|speed| ≤ maxSpeed·1.1` holds
for passes whose displacement check passes (verdict valid), with speeds
beyond the bound clamped to the signed maximum `±maxSpeed`; a pass whose
verdict is rubberband or kick skips the speed check and leaves the speed
unchanged. -/
theorem validation_speed_bound (p : Player) (dt : ℚ) :
    ((ValidatePlayerMovement p dt).1 = ValidationResult.valid →
      |(ApplyValidationResult (ValidatePlayerMovement p dt).2
          (ValidatePlayerMovement p dt).1).speed| ≤
        config.MaxSpeed * config.SpeedTolerance ∧
      (config.MaxSpeed * config.SpeedTolerance < |p.speed| →
        (ApplyValidationResult (ValidatePlayerMovement p dt).2
            (ValidatePlayerMovement p dt).1).speed = copysign config.MaxSpeed p.speed)) ∧
    ((ValidatePlayerMovement p dt).1 ≠ ValidationResult.valid →
      (ApplyValidationResult (ValidatePlayerMovement p dt).2
          (ValidatePlayerMovement p dt).1).speed = p.speed) := by
  unfold ValidatePlayerMovement
  by_cases hex : distanceExceeds (p.x - p.lastValidX) (p.y - p.lastValidY)
      (config.MaxSpeed * dt * config.SpeedTolerance)
  · simp only [if_pos hex]
    by_cases hv : config.MaxViolations < p.violations + 1
    · simp [if_pos hv, ApplyValidationResult]
    · simp [if_neg hv, ApplyValidationResult, RubberbandToValid]
  · simp only [if_neg hex]
    refine ⟨fun _ => ?_, fun hne => absurd rfl hne⟩
    have hspeed : (ApplyValidationResult
        (if 0 < p.violations ∧ ¬ distanceExceeds (p.x - p.lastValidX) (p.y - p.lastValidY)
              (config.MaxSpeed * dt * config.SpeedTolerance) then
          { (if config.MaxSpeed * config.SpeedTolerance < |p.speed| then
              { p with violations := p.violations + 1,
                       speed := copysign config.MaxSpeed p.speed }
            else p) with violations := 0 }
        else
          (if config.MaxSpeed * config.SpeedTolerance < |p.speed| then
              { p with violations := p.violations + 1,
                       speed := copysign config.MaxSpeed p.speed }
            else p))
        ValidationResult.valid).speed =
        if config.MaxSpeed * config.SpeedTolerance < |p.speed| then
          copysign config.MaxSpeed p.speed else p.speed := by
      by_cases hz : 0 < p.violations ∧ ¬ distanceExceeds (p.x - p.lastValidX)
          (p.y - p.lastValidY) (config.MaxSpeed * dt * config.SpeedTolerance)
      · by_cases hs : config.MaxSpeed * config.SpeedTolerance < |p.speed| <;>
          simp [hz, hs, ApplyValidationResult, SaveValidPosition]
      · by_cases hs : config.MaxSpeed * config.SpeedTolerance < |p.speed| <;>
          simp [hz, hs, ApplyValidationResult, SaveValidPosition]
    rw [hspeed]
    by_cases hs : config.MaxSpeed * config.SpeedTolerance < |p.speed|
    · refine ⟨?_, fun _ => by rw [if_pos hs]⟩
      rw [if_pos hs, abs_copysign]
      norm_num [config.MaxSpeed, config.SpeedTolerance]
    · refine ⟨?_, fun hgt => absurd hgt hs⟩
      rw [if_neg hs]
      exact le_of_not_lt hs

/-- Witness for C2 (amended) at a concrete in-bounds participant whose
speed 2000 exceeds the tolerated 1540 and is clamped to 1400. -/
theorem validation_speed_bound_witness :
    (ApplyValidationResult (ValidatePlayerMovement clampPlayer (1 / 60)).2
        (ValidatePlayerMovement clampPlayer (1 / 60)).1).speed = 1400 := by
  have h := ((validation_speed_bound clampPlayer (1 / 60)).1
      (by norm_num [clampPlayer, NewPlayer, ValidatePlayerMovement, distanceExceeds,
        config.MaxSpeed, config.SpeedTolerance])).2
    (by norm_num [clampPlayer, NewPlayer, config.MaxSpeed, config.SpeedTolerance])
  rw [h]
  norm_num [copysign, clampPlayer, NewPlayer, config.MaxSpeed]

/-- The position check's allowance evaluates to 410:
`400·0.5 + 400·0.35·1.5`. -/
theorem validatePosition_eq (roadCurve : ℚ → ℚ) (p : Player) :
    ValidatePosition roadCurve p =
      if 410 < |p.x - roadCurve p.y| then ValidationResult.explode
      else ValidationResult.valid := by
  unfold ValidatePosition
  norm_num [config.RoadWidth, config.ExplosionTolerance]

/-- One offending tick of a participant whose rubberband baseline is within
the 410 allowance: verdict rubberband, position restored, and the violation
counter — incremented twice on the way — is wiped back to zero by the
passing position check. -/
theorem playerCheatTick_onroad (roadCurve : ℚ → ℚ) (s : Player) (m : ℚ × ℚ) (dt : ℚ)
    (hviol : s.violations = 0)
    (hon : |s.lastValidX - roadCurve s.lastValidY| ≤ 410)
    (hoff : distanceExceeds (m.1 - s.lastValidX) (m.2 - s.lastValidY)
      (config.MaxSpeed * dt * config.SpeedTolerance)) :
    playerCheatTick roadCurve s m dt =
      (ValidationResult.rubberband, { s with x := s.lastValidX, y := s.lastValidY }) := by
  unfold playerCheatTick
  norm_num [ValidatePlayerMovement, hoff, hviol, config.MaxViolations,
    ApplyValidationResult, RubberbandToValid, SaveValidPosition,
    validatePosition_eq, not_lt.mpr hon]
  decide

/-- Offending streaks against an on-road baseline rubberband forever: every
tick's verdict is rubberband, however long the streak. -/
theorem playerCheatRun_onroad (roadCurve : ℚ → ℚ) (dt : ℚ) :
    ∀ (moves : List (ℚ × ℚ)) (s : Player),
      s.violations = 0 →
      |s.lastValidX - roadCurve s.lastValidY| ≤ 410 →
      (∀ m ∈ moves, distanceExceeds (m.1 - s.lastValidX) (m.2 - s.lastValidY)
        (config.MaxSpeed * dt * config.SpeedTolerance)) →
      (playerCheatRun roadCurve s moves dt).1 =
        List.replicate moves.length ValidationResult.rubberband := by
  intro moves
  induction moves with
  | nil => intro s _ _ _; rfl
  | cons m ms ih =>
    intro s hviol hon hoff
    have hstep := playerCheatTick_onroad roadCurve s m dt hviol hon
      (hoff m (List.mem_cons_self m ms))
    unfold playerCheatRun
    rw [hstep]
    have hrest := ih { s with x := s.lastValidX, y := s.lastValidY }
      (by simpa using hviol) (by simpa using hon)
      (by intro mm hmm; simpa using hoff mm (List.mem_cons_of_mem m hmm))
    simp [hrest, List.replicate]

/-- One offending tick of a participant whose rubberband baseline lies
beyond the 410 allowance and whose pre-tick counter keeps the kick check
quiet: verdict rubberband, position restored, counter up by two, and the
position check detonates (idempotently) instead of wiping the counter. -/
theorem playerCheatTick_offroad (roadCurve : ℚ → ℚ) (s : Player) (m : ℚ × ℚ) (dt : ℚ)
    (hviol : s.violations + 1 ≤ 5)
    (hfar : 410 < |s.lastValidX - roadCurve s.lastValidY|)
    (hoff : distanceExceeds (m.1 - s.lastValidX) (m.2 - s.lastValidY)
      (config.MaxSpeed * dt * config.SpeedTolerance)) :
    playerCheatTick roadCurve s m dt =
      (ValidationResult.rubberband,
       if s.exploded then
         { s with x := s.lastValidX, y := s.lastValidY, violations := s.violations + 2 }
       else
         { s with x := s.lastValidX, y := s.lastValidY, violations := s.violations + 2,
                  exploded := true, rating := 0 }) := by
  have hnk : ¬ ((5 : ℤ) < s.violations + 1) := by omega
  by_cases hexp : s.exploded
  · unfold playerCheatTick
    norm_num [ValidatePlayerMovement, hoff, hnk, hexp, config.MaxViolations,
      ApplyValidationResult, RubberbandToValid, Explode, validatePosition_eq, hfar]
    split
    · next h => exact absurd h (by decide)
    · simp only [Prod.mk.injEq, Player.mk.injEq, true_and, and_true]
      omega
  · unfold playerCheatTick
    norm_num [ValidatePlayerMovement, hoff, hnk, hexp, config.MaxViolations,
      ApplyValidationResult, RubberbandToValid, Explode, validatePosition_eq, hfar]
    split
    · next h => exact absurd h (by decide)
    · simp only [Prod.mk.injEq, Player.mk.injEq, true_and, and_true]
      omega

/-- The kicking tick at room level: a participant at five or more
violations whose displacement offends again draws the kick verdict, is
removed from the room within the tick, and the only frame sent to it is
the single Error frame with code 3. -/
theorem cheatTick_kick (roadCurve : ℚ → ℚ) (rid : String) (n pid : ℕ) (q : Player)
    (m : ℚ × ℚ) (dt : ℚ)
    (hv : 5 ≤ q.violations)
    (hoff : distanceExceeds (m.1 - q.lastValidX) (m.2 - q.lastValidY)
      (config.MaxSpeed * dt * config.SpeedTolerance)) :
    cheatTick roadCurve { id := rid, players := [(pid, q)], nextPlayerID := n } pid m dt =
      ({ id := rid, players := [], nextPlayerID := n },
       [EncodeError ErrorCodeKicked "Speed hack detected"],
       some ValidationResult.kick) := by
  have hk : (5 : ℤ) < q.violations + 1 := by omega
  unfold cheatTick roomValidateMovement setPlayerPos RemovePlayer
  norm_num [ValidatePlayerMovement, hoff, hk, config.MaxViolations, List.find?]

/-- A non-kicking room-level tick against an on-road baseline: verdict
rubberband, no frames, participant retained with its position restored. -/
theorem cheatTick_onroad (roadCurve : ℚ → ℚ) (rid : String) (n pid : ℕ) (s : Player)
    (m : ℚ × ℚ) (dt : ℚ)
    (hviol : s.violations = 0)
    (hon : |s.lastValidX - roadCurve s.lastValidY| ≤ 410)
    (hoff : distanceExceeds (m.1 - s.lastValidX) (m.2 - s.lastValidY)
      (config.MaxSpeed * dt * config.SpeedTolerance)) :
    cheatTick roadCurve { id := rid, players := [(pid, s)], nextPlayerID := n } pid m dt =
      ({ id := rid,
         players := [(pid, { s with x := s.lastValidX, y := s.lastValidY })],
         nextPlayerID := n },
       [], some ValidationResult.rubberband) := by
  unfold cheatTick roomValidateMovement setPlayerPos setPlayer
  norm_num [ValidatePlayerMovement, hoff, hviol, config.MaxViolations, List.find?,
    ApplyValidationResult, RubberbandToValid, SaveValidPosition,
    validatePosition_eq, not_lt.mpr hon]
  decide

/-- C1 counterexample: a participant at the origin (an on-road baseline)
whose displacement offends on 6 > 5 consecutive ticks is rubberbanded on
every one of them — including the sixth — and is never kicked: the room
still holds it, no frame is ever sent to it, and no kick verdict occurs,
because the passing position check of each tick resets the violation
counter that the claim expects to reach the kick threshold. -/
theorem anticheat_kick_counterexample :
    cheatRun (fun _ => 0) cheaterRoom 1 (List.replicate 6 (1000000, 0)) (1 / 60) =
      (cheaterRoom, [], List.replicate 6 (some ValidationResult.rubberband)) := by
  have h1 : cheatTick (fun _ => 0) cheaterRoom 1 (1000000, 0) (1 / 60) =
      (cheaterRoom, [], some ValidationResult.rubberband) := by
    have h := cheatTick_onroad (fun _ => 0) "r" 2 1 (NewPlayer 1 "c" 0) (1000000, 0) (1 / 60)
      rfl (by norm_num [NewPlayer])
      (by norm_num [NewPlayer, distanceExceeds, config.MaxSpeed, config.SpeedTolerance])
    simpa [cheaterRoom, NewPlayer] using h
  show cheatRun (fun _ => 0) cheaterRoom 1
      ((1000000, 0) :: (1000000, 0) :: (1000000, 0) :: (1000000, 0) :: (1000000, 0) ::
        (1000000, 0) :: []) (1 / 60) = _
  rw [cheatRun, h1]
  rw [cheatRun, h1]
  rw [cheatRun, h1]
  rw [cheatRun, h1]
  rw [cheatRun, h1]
  rw [cheatRun, h1]
  rfl

/-- C1 (amended): consecutive offending ticks (displacement beyond
`maxSpeed·dt·1.1`) draw the rubberband verdict, but the violation counter
the kick relies on is reset by each tick's passing position check, so (a) a
participant whose rubberband baseline lies within the 410 allowance of the
centerline is rubberbanded on every offending tick of an arbitrarily long
streak and never kicked; (b) only when the baseline lies beyond 410 does
the counter grow — by 2 per offending tick — with verdict rubberband on the
first three ticks, leaving the counter at 6; and (c) a participant with at
least 5 violations whose displacement offends again is kicked within that
tick: removed from the room, with exactly one Error frame, code 3, sent to
it before removal. -/
theorem anticheat_kick_amended (roadCurve : ℚ → ℚ) (p : Player) (dt : ℚ)
    (hviol : p.violations = 0) :
    (|p.lastValidX - roadCurve p.lastValidY| ≤ 410 →
      ∀ moves : List (ℚ × ℚ),
        (∀ m ∈ moves, distanceExceeds (m.1 - p.lastValidX) (m.2 - p.lastValidY)
          (config.MaxSpeed * dt * config.SpeedTolerance)) →
        (playerCheatRun roadCurve p moves dt).1 =
          List.replicate moves.length ValidationResult.rubberband) ∧
    (410 < |p.lastValidX - roadCurve p.lastValidY| →
      ∀ m1 m2 m3 : ℚ × ℚ,
        (∀ m ∈ [m1, m2, m3], distanceExceeds (m.1 - p.lastValidX) (m.2 - p.lastValidY)
          (config.MaxSpeed * dt * config.SpeedTolerance)) →
        (playerCheatRun roadCurve p [m1, m2, m3] dt).1 =
          List.replicate 3 ValidationResult.rubberband ∧
        (playerCheatRun roadCurve p [m1, m2, m3] dt).2.violations = 6) ∧
    (∀ (rid : String) (n pid : ℕ) (q : Player) (m4 : ℚ × ℚ),
      5 ≤ q.violations →
      distanceExceeds (m4.1 - q.lastValidX) (m4.2 - q.lastValidY)
        (config.MaxSpeed * dt * config.SpeedTolerance) →
      cheatTick roadCurve { id := rid, players := [(pid, q)], nextPlayerID := n } pid m4 dt =
        ({ id := rid, players := [], nextPlayerID := n },
         [EncodeError ErrorCodeKicked "Speed hack detected"],
         some ValidationResult.kick) ∧
      (EncodeError ErrorCodeKicked "Speed hack detected").take 2 =
        [MsgTypeError, ErrorCodeKicked]) := by
  refine ⟨fun hon moves hoff => ?_, fun hfar m1 m2 m3 hoff => ?_,
    fun rid n pid q m4 hv hoff => ⟨cheatTick_kick roadCurve rid n pid q m4 dt hv hoff, ?_⟩⟩
  · exact playerCheatRun_onroad roadCurve dt moves p hviol hon hoff
  · have t1 := playerCheatTick_offroad roadCurve p m1 dt (by omega) hfar
      (hoff m1 (by simp))
    by_cases hexp : p.exploded
    · rw [if_pos hexp, hviol] at t1
      norm_num at t1
      have t2 := playerCheatTick_offroad roadCurve
        { p with x := p.lastValidX, y := p.lastValidY, violations := 2 } m2 dt
        (by norm_num) (by simpa using hfar) (by simpa using hoff m2 (by simp))
      rw [if_pos (by simpa using hexp)] at t2
      norm_num at t2
      have t3 := playerCheatTick_offroad roadCurve
        { p with x := p.lastValidX, y := p.lastValidY, violations := 4 } m3 dt
        (by norm_num) (by simpa using hfar) (by simpa using hoff m3 (by simp))
      rw [if_pos (by simpa using hexp)] at t3
      norm_num at t3
      refine ⟨?_, ?_⟩ <;> simp [playerCheatRun, t1, t2, t3]
    · rw [if_neg hexp, hviol] at t1
      norm_num at t1
      have t2 := playerCheatTick_offroad roadCurve
        { p with x := p.lastValidX, y := p.lastValidY, violations := 2,
                 exploded := true, rating := 0 } m2 dt
        (by norm_num) (by simpa using hfar) (by simpa using hoff m2 (by simp))
      rw [if_pos (by simp)] at t2
      norm_num at t2
      have t3 := playerCheatTick_offroad roadCurve
        { p with x := p.lastValidX, y := p.lastValidY, violations := 4,
                 exploded := true, rating := 0 } m3 dt
        (by norm_num) (by simpa using hfar) (by simpa using hoff m3 (by simp))
      rw [if_pos (by simp)] at t3
      norm_num at t3
      refine ⟨?_, ?_⟩ <;> simp [playerCheatRun, t1, t2, t3]
  · norm_num [EncodeError, MsgTypeError, ErrorCodeKicked]

/-- Witness for C1 (amended): (a) one offending tick of the origin-based
participant is rubberbanded; (c) a participant already at six violations is
kicked on the next offending tick, removed, and sent the single code-3
Error frame. -/
theorem anticheat_kick_amended_witness :
    (playerCheatRun (fun _ => 0) (NewPlayer 1 "c" 0) [(1000000, 0)] (1 / 60)).1 =
      [ValidationResult.rubberband] ∧
    cheatTick (fun _ => 0)
        { id := "k", players := [(9, kickReadyPlayer)], nextPlayerID := 5 } 9
        (1000000, 0) (1 / 60) =
      ({ id := "k", players := [], nextPlayerID := 5 },
       [EncodeError ErrorCodeKicked "Speed hack detected"],
       some ValidationResult.kick) := by
  constructor
  · have h := (anticheat_kick_amended (fun _ => 0) (NewPlayer 1 "c" 0) (1 / 60) rfl).1
      (by norm_num [NewPlayer]) [(1000000, 0)]
      (by
        intro m hm
        simp only [List.mem_singleton] at hm
        subst hm
        norm_num [NewPlayer, distanceExceeds, config.MaxSpeed, config.SpeedTolerance])
    simpa using h
  · exact ((anticheat_kick_amended (fun _ => 0) (NewPlayer 1 "c" 0) (1 / 60) rfl).2.2
      "k" 5 9 kickReadyPlayer (1000000, 0)
      (by norm_num [kickReadyPlayer, NewPlayer])
      (by norm_num [kickReadyPlayer, NewPlayer, distanceExceeds,
        config.MaxSpeed, config.SpeedTolerance])).1

/-- Running a concatenated trace composes state and concatenates the
assigned ids. -/
theorem runTrace_append (a b : List RoomOp) : ∀ r : Room,
    runTrace r (a ++ b) =
      ((runTrace (runTrace r a).1 b).1,
       (runTrace r a).2 ++ (runTrace (runTrace r a).1 b).2) := by
  induction a with
  | nil => intro r; simp [runTrace]
  | cons op rest ih => intro r; simp [runTrace, ih, List.append_assoc]

/-- The ids assigned by any trace are consecutive values of the wrapping
16-bit counter, starting at the room's current counter value. -/
theorem runTrace_ids (ops : List RoomOp) : ∀ r : Room, r.nextPlayerID < 65536 →
    ∃ k, (runTrace r ops).2 =
        (List.range k).map (fun i => (r.nextPlayerID + i) % 65536) ∧
      (runTrace r ops).1.nextPlayerID = (r.nextPlayerID + k) % 65536 := by
  induction ops with
  | nil =>
    intro r hr
    exact ⟨0, by simp [runTrace], by simp [runTrace, Nat.mod_eq_of_lt hr]⟩
  | cons op rest ih =>
    intro r hr
    cases op with
    | add name color =>
      by_cases hfull : config.MaxPlayersPerRoom ≤ r.players.length
      · have hop : runOp r (RoomOp.add name color) = (r, none) := by
          simp [runOp, AddPlayer, hfull]
        obtain ⟨k, h1, h2⟩ := ih r hr
        exact ⟨k, by simp [runTrace, hop, h1], by simp [runTrace, hop, h2]⟩
      · have hop : runOp r (RoomOp.add name color) =
            ({ r with nextPlayerID := (r.nextPlayerID + 1) % 65536,
                      players := r.players ++
                        [(r.nextPlayerID,
                          SaveValidPosition
                            { NewPlayer r.nextPlayerID name color with x := 0, y := 0 })] },
             some r.nextPlayerID) := by
          simp [runOp, AddPlayer, hfull]
        obtain ⟨k, h1, h2⟩ := ih
          { r with nextPlayerID := (r.nextPlayerID + 1) % 65536,
                   players := r.players ++
                     [(r.nextPlayerID,
                       SaveValidPosition
                         { NewPlayer r.nextPlayerID name color with x := 0, y := 0 })] }
          (Nat.mod_lt (r.nextPlayerID + 1) (show 0 < 65536 by norm_num))
        refine ⟨k + 1, ?_, ?_⟩
        · rw [runTrace, hop]
          simp only [Option.toList_some, List.singleton_append]
          rw [h1, List.range_succ_eq_map]
          simp only [List.map_cons, List.map_map, Nat.add_zero]
          congr 1
          · exact (Nat.mod_eq_of_lt hr).symm
          · apply List.map_congr_left
            intro i _
            simp only [Function.comp_apply, Nat.mod_add_mod]
            congr 1
            omega
        · rw [runTrace, hop]
          rw [h2]
          simp only [Nat.mod_add_mod]
          congr 1
          omega
    | remove pid =>
      obtain ⟨k, h1, h2⟩ := ih (RemovePlayer r pid) (by simpa [RemovePlayer] using hr)
      exact ⟨k, by simp [runTrace, runOp, RemovePlayer] at h1 ⊢; simpa using h1,
        by simp [runTrace, runOp, RemovePlayer] at h2 ⊢; simpa using h2⟩

/-- Closed form for the join/leave cycle trace: the room ends empty with
the counter advanced `n` steps (mod 2^16), and the assigned ids are the
successive counter values. -/
theorem wrapTrace_run : ∀ n : ℕ,
    runTrace (NewRoom "w") (wrapTrace n) =
      ({ id := "w", players := [], nextPlayerID := (1 + n) % 65536 },
       (List.range n).map (fun i => (1 + i) % 65536)) := by
  intro n
  induction n with
  | zero => simp [wrapTrace, runTrace, NewRoom]
  | succ k ih =>
    have hsplit : wrapTrace (k + 1) =
        wrapTrace k ++ [RoomOp.add "w" 0, RoomOp.remove ((1 + k) % 65536)] := by
      simp [wrapTrace, List.range_succ]
    rw [hsplit, runTrace_append, ih]
    simp only [runTrace, runOp, AddPlayer, RemovePlayer, config.MaxPlayersPerRoom]
    norm_num [List.range_succ, Nat.mod_add_mod]
    omega

set_option maxRecDepth 10000 in
/-- C8 counterexample: the id counter is a Go `uint16`, so after 65536
joins (with leaves in between keeping the room under its cap) the counter
wraps and the reserved id 0 is assigned. -/
theorem room_id_counter_counterexample :
    0 ∈ (runTrace (NewRoom "w") (wrapTrace 65536)).2 := by
  have h : (runTrace (NewRoom "w") (wrapTrace 65536)).2 =
      (List.range 65536).map (fun i => (1 + i) % 65536) := by
    rw [wrapTrace_run]
  rw [h]
  exact List.mem_map.mpr ⟨65535, List.mem_range.mpr (by norm_num), by norm_num⟩

/-- C8 (amended): as long as at most 65535 ids have been assigned within
the room's lifetime, the ids assigned by any sequence of joins and leaves
from a fresh room are exactly `1, 2, …, k` in order: drawn from a
monotonically increasing counter starting at 1, with 0 never assigned and
no id assigned twice.  (The counter is 16-bit; the counterexample shows the
65536th assignment wraps to 0.) -/
theorem room_id_assignment_amended (roomId : String) (ops : List RoomOp)
    (h : (runTrace (NewRoom roomId) ops).2.length ≤ 65535) :
    (runTrace (NewRoom roomId) ops).2 =
      (List.range (runTrace (NewRoom roomId) ops).2.length).map (fun i => 1 + i) ∧
    0 ∉ (runTrace (NewRoom roomId) ops).2 ∧
    (runTrace (NewRoom roomId) ops).2.Nodup ∧
    List.Pairwise (· < ·) (runTrace (NewRoom roomId) ops).2 := by
  obtain ⟨k, h1, -⟩ := runTrace_ids ops (NewRoom roomId) (by norm_num [NewRoom])
  rw [show (NewRoom roomId).nextPlayerID = 1 from rfl] at h1
  have hk : k ≤ 65535 := by
    rw [h1] at h
    simpa using h
  have hmap : (List.range k).map (fun i => (1 + i) % 65536) =
      (List.range k).map (fun i => 1 + i) := by
    apply List.map_congr_left
    intro i hi
    have hik := List.mem_range.mp hi
    exact Nat.mod_eq_of_lt (by omega)
  rw [h1, hmap]
  simp only [List.length_map, List.length_range]
  refine ⟨trivial, ?_, ?_, ?_⟩
  · intro hmem
    obtain ⟨i, -, hi⟩ := List.mem_map.mp hmem
    omega
  · exact List.Nodup.map (fun a b hab => by omega) (List.nodup_range k)
  · exact List.Pairwise.map _ (fun a b hab => by omega) (List.pairwise_lt_range k)

/-- Witness for C8 (amended) on a short join/leave trace. -/
theorem room_id_assignment_amended_witness :
    0 ∉ (runTrace (NewRoom "ws") shortTrace).2 ∧
    (runTrace (NewRoom "ws") shortTrace).2.Nodup ∧
    List.Pairwise (· < ·) (runTrace (NewRoom "ws") shortTrace).2 := by
  have h := room_id_assignment_amended "ws" shortTrace
    (by
      simp [shortTrace, runTrace, runOp, AddPlayer, RemovePlayer, NewRoom,
        config.MaxPlayersPerRoom])
  exact ⟨h.2.1, h.2.2.1, h.2.2.2⟩

/-- Signed 16-bit round trip through the two's-complement byte pair. -/
theorem asInt16_bytes (z : ℤ) (h1 : -32768 ≤ z) (h2 : z < 32768) :
    asInt16 (toUInt16 z % 256 + 256 * (toUInt16 z / 256)) = z := by
  unfold asInt16 toUInt16
  split <;> omega

/-- Signed 8-bit round trip through the two's-complement byte. -/
theorem asInt8_byte (z : ℤ) (h1 : -128 ≤ z) (h2 : z < 128) :
    asInt8 (toUInt8 z) = z := by
  unfold asInt8 toUInt8
  split <;> omega

/-- The four per-field facts of one encoded record: id is recovered
exactly, x and speed as the stored integer over 10, the angle as the stored
integer times 25/127. -/
theorem decodeRecord_encodePlayerState (d : PlayerStateData)
    (hid : d.id < 65536)
    (hx1 : -32768 ≤ d.x) (hx2 : d.x < 32768)
    (hs1 : -32768 ≤ d.speed) (hs2 : d.speed < 32768)
    (ha1 : -128 ≤ d.angle) (ha2 : d.angle < 128) :
    (decodeRecord (encodePlayerState d) 0).id = d.id ∧
    (decodeRecord (encodePlayerState d) 0).x = (d.x : ℚ) / 10 ∧
    (decodeRecord (encodePlayerState d) 0).speed = (d.speed : ℚ) / 10 ∧
    (decodeRecord (encodePlayerState d) 0).angle = (d.angle : ℚ) * 25 / 127 := by
  refine ⟨?_, ?_, ?_, ?_⟩
  · simp [decodeRecord, encodePlayerState, byteAt]
    omega
  · simp [decodeRecord, encodePlayerState, byteAt]
    rw [asInt16_bytes d.x hx1 hx2]
  · simp [decodeRecord, encodePlayerState, byteAt]
    rw [asInt16_bytes d.speed hs1 hs2]
  · simp [decodeRecord, encodePlayerState, byteAt]
    rw [asInt8_byte d.angle ha1 ha2]

/-- Every encoded record is 16 bytes. -/
theorem encodePlayerState_length (d : PlayerStateData) :
    (encodePlayerState d).length = 16 := rfl

/-- Reading a record at the offset where it was placed ignores the
surrounding bytes. -/
theorem decodeRecord_shift (pre mid post : List ℕ) (hmid : mid.length = 16) :
    decodeRecord (pre ++ mid ++ post) pre.length = decodeRecord mid 0 := by
  have hread : ∀ k, k < 16 → byteAt (pre ++ mid ++ post) (pre.length + k) = byteAt mid k := by
    intro k hk
    unfold byteAt
    rw [List.append_assoc,
      List.getD_append_right pre (mid ++ post) 0 (pre.length + k) (by omega),
      Nat.add_sub_cancel_left,
      List.getD_append mid post 0 k (by omega)]
  have e0 : byteAt (pre ++ mid ++ post) pre.length = byteAt mid 0 := by
    have h := hread 0 (by omega)
    simpa using h
  unfold decodeRecord
  simp only [Nat.zero_add]
  rw [e0, hread 1 (by omega), hread 2 (by omega), hread 3 (by omega), hread 4 (by omega),
    hread 5 (by omega), hread 6 (by omega), hread 7 (by omega), hread 8 (by omega),
    hread 9 (by omega), hread 10 (by omega), hread 11 (by omega), hread 12 (by omega),
    hread 13 (by omega), hread 14 (by omega), hread 15 (by omega)]

/-- Decoding records at their 16-byte offsets inside the frame recovers
each record's standalone decoding. -/
theorem decode_encode_records (data : List PlayerStateData) : ∀ pre : List ℕ,
    (List.range data.length).map
      (fun i => decodeRecord (pre ++ (data.map encodePlayerState).flatten)
        (pre.length + 16 * i)) =
      data.map (fun d => decodeRecord (encodePlayerState d) 0) := by
  induction data with
  | nil => intro pre; simp
  | cons d ds ih =>
    intro pre
    have hflat : ((d :: ds).map encodePlayerState).flatten =
        encodePlayerState d ++ (ds.map encodePlayerState).flatten := by
      simp
    rw [show (d :: ds).length = ds.length + 1 from rfl, List.range_succ_eq_map]
    simp only [List.map_cons, List.map_map]
    have hcons : (encodePlayerState d :: List.map encodePlayerState ds).flatten =
        encodePlayerState d ++ (List.map encodePlayerState ds).flatten := by
      simp
    rw [hcons]
    congr 1
    · rw [Nat.mul_zero, Nat.add_zero, ← List.append_assoc]
      exact decodeRecord_shift pre (encodePlayerState d)
        ((ds.map encodePlayerState).flatten) (encodePlayerState_length d)
    · rw [← ih (pre ++ encodePlayerState d)]
      apply List.map_congr_left
      intro i hi
      simp only [Function.comp_apply]
      rw [← List.append_assoc]
      have harg : pre.length + 16 * (i + 1) =
          (pre ++ encodePlayerState d).length + 16 * i := by
        rw [List.length_append, encodePlayerState_length]
        omega
      rw [harg]

/-- Quantization error of the ×10 truncation: strictly below 0.1. -/
theorem trunc_div10_close (q : ℚ) : |(trunc (q * 10) : ℚ) / 10 - q| < 1 / 10 := by
  have h := abs_trunc_sub_lt (q * 10)
  have hr : (trunc (q * 10) : ℚ) / 10 - q = ((trunc (q * 10) : ℚ) - q * 10) / 10 := by
    ring
  rw [hr, abs_div, abs_of_pos (show (0 : ℚ) < 10 by norm_num)]
  linarith

/-- The ×10-scaled truncation of a value within ±3276 fits in an int16. -/
theorem trunc_int16_range (q : ℚ) (h : |q| ≤ 3276) :
    -32768 ≤ trunc (q * 10) ∧ trunc (q * 10) < 32768 := by
  have h2 : |(trunc (q * 10) : ℚ)| ≤ 32760 := by
    refine le_trans (abs_trunc_le _) ?_
    rw [abs_mul, abs_of_pos (show (0 : ℚ) < 10 by norm_num)]
    linarith
  have h3 : |trunc (q * 10)| ≤ 32760 := by
    have := h2
    rw [← Int.cast_abs] at this
    exact_mod_cast this
  rw [abs_le] at h3
  omega

/-- For an angle within ±25 degrees the ±127 clamp is the identity. -/
theorem clamp_angle_eq (a : ℚ) (h : |a| ≤ 25) :
    max (-127) (min 127 (a * 127 / 25)) = a * 127 / 25 := by
  rw [abs_le] at h
  have h1 : a * 127 / 25 ≤ 127 := by nlinarith [h.2]
  have h2 : -127 ≤ a * 127 / 25 := by nlinarith [h.1]
  rw [min_eq_right h1, max_eq_right h2]

/-- The clamped, truncated angle always fits in an int8. -/
theorem trunc_clamp_range (v : ℚ) :
    -127 ≤ trunc (max (-127) (min 127 v)) ∧ trunc (max (-127) (min 127 v)) ≤ 127 := by
  have hw1 : (-127 : ℚ) ≤ max (-127) (min 127 v) := le_max_left _ _
  have hw2 : max (-127 : ℚ) (min 127 v) ≤ 127 := max_le (by norm_num) (min_le_left _ _)
  have habs : |(trunc (max (-127) (min 127 v)) : ℚ)| ≤ 127 :=
    le_trans (abs_trunc_le _) (abs_le.mpr ⟨hw1, hw2⟩)
  have h3 : |trunc (max (-127) (min 127 v))| ≤ 127 := by
    rw [← Int.cast_abs] at habs
    exact_mod_cast habs
  rw [abs_le] at h3
  omega

/-- Quantization error of the ±127-over-±25 angle scale: at most 25/127. -/
theorem angle_accuracy (a : ℚ) (h : |a| ≤ 25) :
    |(trunc (max (-127) (min 127 (a * 127 / 25))) : ℚ) * 25 / 127 - a| ≤ 25 / 127 := by
  rw [clamp_angle_eq a h]
  have hd := abs_trunc_sub_lt (a * 127 / 25)
  have key : (trunc (a * 127 / 25) : ℚ) * 25 / 127 - a =
      ((trunc (a * 127 / 25) : ℚ) - a * 127 / 25) * (25 / 127) := by
    ring
  rw [key, abs_mul, abs_of_pos (show (0 : ℚ) < 25 / 127 by norm_num)]
  nlinarith [hd, abs_nonneg ((trunc (a * 127 / 25) : ℚ) - a * 127 / 25)]

/-- Decoding an encoded StateUpdate of at most 255 records yields exactly
the standalone decodings of the records, in order. -/
theorem decodeStateUpdate_encodeStateUpdate (tick : ℕ) (data : List PlayerStateData)
    (hlen : data.length ≤ 255) :
    (decodeStateUpdate (EncodeStateUpdate tick data)).2 =
      data.map (fun d => decodeRecord (encodePlayerState d) 0) := by
  have hcount : min data.length 255 = data.length := Nat.min_eq_left hlen
  simp only [EncodeStateUpdate, decodeStateUpdate, hcount, List.take_length]
  have h3 : byteAt
      ([MsgTypeStateUpdate, tick % 65536 % 256, tick % 65536 / 256, data.length] ++
        (data.map encodePlayerState).flatten) 3 = data.length := by
    unfold byteAt
    rw [List.getD_append _ _ _ _ (by simp)]
    rfl
  rw [h3]
  have h := decode_encode_records data
    [MsgTypeStateUpdate, tick % 65536 % 256, tick % 65536 / 256, data.length]
  simpa using h

/-- C3 (amended): an encode→decode round trip of a StateUpdate for at most
255 participants whose coordinates fit the int16 wire range (|x|, |speed| ≤
3276) and whose angle is within the ±25° scale preserves ids exactly and
recovers x and speed to within strictly 0.1 — the ×10 scale is truncated
toward zero, not rounded, so the error bound 0.05 of the claim fails — and
the angle to within 25/127 of a degree. -/
theorem stateUpdate_roundtrip_amended (tick : ℕ) (players : List PlayerState)
    (hlen : players.length ≤ 255)
    (hb : ∀ s ∈ players, s.id < 65536 ∧ |s.x| ≤ 3276 ∧ |s.speed| ≤ 3276 ∧ |s.angle| ≤ 25) :
    (decodeStateUpdate (EncodeStateUpdate tick (players.map convertState))).2.length =
      players.length ∧
    ∀ i, i < players.length →
      ((decodeStateUpdate (EncodeStateUpdate tick (players.map convertState))).2.getD i
          default).id = (players.getD i default).id ∧
      |((decodeStateUpdate (EncodeStateUpdate tick (players.map convertState))).2.getD i
          default).x - (players.getD i default).x| < 1 / 10 ∧
      |((decodeStateUpdate (EncodeStateUpdate tick (players.map convertState))).2.getD i
          default).speed - (players.getD i default).speed| < 1 / 10 ∧
      |((decodeStateUpdate (EncodeStateUpdate tick (players.map convertState))).2.getD i
          default).angle - (players.getD i default).angle| ≤ 25 / 127 := by
  have hdec := decodeStateUpdate_encodeStateUpdate tick (players.map convertState)
    (by simpa using hlen)
  rw [hdec]
  constructor
  · simp
  · intro i hi
    have hilen : i < ((players.map convertState).map
        (fun d => decodeRecord (encodePlayerState d) 0)).length := by
      simpa using hi
    have hget : (((players.map convertState).map
        (fun d => decodeRecord (encodePlayerState d) 0)).getD i default) =
        decodeRecord (encodePlayerState (convertState (players.getD i default))) 0 := by
      rw [List.getD_eq_getElem _ _ hilen, List.getD_eq_getElem _ _ hi]
      simp
    have hmem : players.getD i default ∈ players := by
      rw [List.getD_eq_getElem _ _ hi]
      exact List.getElem_mem _
    obtain ⟨hsid, hsx, hss, hsa⟩ := hb _ hmem
    have hx := trunc_int16_range (players.getD i default).x hsx
    have hsp := trunc_int16_range (players.getD i default).speed hss
    have har := trunc_clamp_range ((players.getD i default).angle * 127 / 25)
    have hfields := decodeRecord_encodePlayerState (convertState (players.getD i default))
      (by simpa [convertState, ConvertToPlayerStateData] using hsid)
      (by simpa [convertState, ConvertToPlayerStateData] using hx.1)
      (by simpa [convertState, ConvertToPlayerStateData] using hx.2)
      (by simpa [convertState, ConvertToPlayerStateData] using hsp.1)
      (by simpa [convertState, ConvertToPlayerStateData] using hsp.2)
      (by
        have := har.1
        simp only [convertState, ConvertToPlayerStateData]
        omega)
      (by
        have := har.2
        simp only [convertState, ConvertToPlayerStateData]
        omega)
    rw [hget]
    refine ⟨?_, ?_, ?_, ?_⟩
    · rw [hfields.1]
      simp [convertState, ConvertToPlayerStateData]
    · rw [hfields.2.1]
      simpa [convertState, ConvertToPlayerStateData] using
        trunc_div10_close (players.getD i default).x
    · rw [hfields.2.2.1]
      simpa [convertState, ConvertToPlayerStateData] using
        trunc_div10_close (players.getD i default).speed
    · rw [hfields.2.2.2]
      simpa [convertState, ConvertToPlayerStateData] using
        angle_accuracy (players.getD i default).angle hsa

/-- C3 counterexample: the ×10 scale truncates toward zero rather than
rounding, so a participant at `x = 0.09` decodes to `x = 0`, an error of
0.09 > 0.05 — the claimed ±0.05 bound fails. -/
theorem stateUpdate_roundtrip_counterexample :
    ¬ |((decodeStateUpdate (EncodeStateUpdate 0 ([tinyState].map convertState))).2.getD 0
        default).x - tinyState.x| ≤ 1 / 20 := by
  have hdec := decodeStateUpdate_encodeStateUpdate 0 ([tinyState].map convertState)
    (by simp)
  have hx : (decodeRecord (encodePlayerState (convertState tinyState)) 0).x = 0 := by
    have hfields := decodeRecord_encodePlayerState (convertState tinyState)
      (by norm_num [convertState, ConvertToPlayerStateData, tinyState])
      (by norm_num [convertState, ConvertToPlayerStateData, tinyState, trunc])
      (by norm_num [convertState, ConvertToPlayerStateData, tinyState, trunc])
      (by norm_num [convertState, ConvertToPlayerStateData, tinyState, trunc])
      (by norm_num [convertState, ConvertToPlayerStateData, tinyState, trunc])
      (by norm_num [convertState, ConvertToPlayerStateData, tinyState, trunc])
      (by norm_num [convertState, ConvertToPlayerStateData, tinyState, trunc])
    rw [hfields.2.1]
    norm_num [convertState, ConvertToPlayerStateData, tinyState, trunc]
  rw [hdec]
  simp only [List.map_cons, List.map_nil, List.getD_cons_zero]
  rw [hx]
  norm_num [tinyState, abs_of_nonneg]

/-- Witness for C3 (amended) at a one-record frame with representative
values. -/
theorem stateUpdate_roundtrip_amended_witness :
    ((decodeStateUpdate (EncodeStateUpdate 7 ([sampleState].map convertState))).2.getD 0
        default).id = 513 ∧
    |((decodeStateUpdate (EncodeStateUpdate 7 ([sampleState].map convertState))).2.getD 0
        default).x - 3 / 2| < 1 / 10 ∧
    |((decodeStateUpdate (EncodeStateUpdate 7 ([sampleState].map convertState))).2.getD 0
        default).speed - 100| < 1 / 10 ∧
    |((decodeStateUpdate (EncodeStateUpdate 7 ([sampleState].map convertState))).2.getD 0
        default).angle - 10| ≤ 25 / 127 := by
  have h := (stateUpdate_roundtrip_amended 7 [sampleState] (by norm_num)
    (by
      intro s hs
      simp only [List.mem_singleton] at hs
      subst hs
      norm_num [sampleState, abs_of_nonneg])).2 0 (by norm_num)
  simpa [sampleState] using h
